import Mathlib

/-
Verification of the EllipseSearch RPA job-scheduling / anti-detection core.

Shallow embedding of:
  - src/rpa/utils/anti_detection.py  (RequestDeduplicator, RequestQueue)
  - src/rpa/worker_v2.py             (engine cooldown tracking, parallel job
    selection, parallel result collection, main-loop error backoff)

Modelling conventions:
  - Python floats are modelled as rationals where the code only adds,
    multiplies and compares them, and as real numbers where the code uses
    float exponentiation (`backoff_base ** level`).
  - Timestamps are rational numbers; `datetime`/`time.time()` arithmetic is
    ordinary subtraction in the same unit as the code (minutes for the
    deduplicator window, seconds elsewhere).
  - Python dicts with `.get(k, default)` defaults are modelled as total
    functions that are `default` outside the written keys.
  - `str.lower()` is modelled by `String.toLower` (the prompts involved are
    ASCII), `str.split()` by splitting on whitespace and dropping empty
    tokens, which is exactly Python's no-argument `split`.
-/

/- ===================== RequestDeduplicator ===================== -/

/-- Helper for Python's no-argument `str.split()`: walk the characters,
accumulating the current non-whitespace run (reversed) in `acc`; whitespace
runs separate words and empty tokens are dropped. -/
def wordsAux : List Char → List Char → List String
  | [], acc => if acc.isEmpty then [] else [String.mk acc.reverse]
  | c :: cs, acc =>
    if c.isWhitespace then
      if acc.isEmpty then wordsAux cs [] else String.mk acc.reverse :: wordsAux cs []
    else wordsAux cs (c :: acc)

/-- Python `str.split()` (no separator): split on whitespace runs, dropping
empty tokens. -/
def pySplit (s : String) : List String := wordsAux s.data []

/-- Python `str.lower()`; character-wise lowercasing (the prompts involved in
this development are ASCII, where `Char.toLower` agrees with Python). -/
def pyLower (s : String) : String := String.mk (s.data.map Char.toLower)

/-- Python `" ".join(words)`. -/
def joinWords : List String → String
  | [] => ""
  | [w] => w
  | w :: ws => w ++ " " ++ joinWords ws

/-- `RequestDeduplicator._normalize_prompt` (anti_detection.py lines 421-423):
`" ".join(prompt.lower().split())` — lowercase, split on whitespace runs,
re-join with single spaces.  Punctuation is left untouched. -/
def normalize_prompt (prompt : String) : String :=
  joinWords (pySplit (pyLower prompt))

/-- `set(a.split())` in `_calculate_similarity` (line 427): the set of
whitespace-separated words of a string. -/
def promptWords (s : String) : Finset String :=
  (pySplit s).toFinset

/-- `RequestDeduplicator._calculate_similarity` (lines 425-436): Jaccard
similarity of the word sets, with an explicit 0.0 guard when either word set
is empty. -/
def calculate_similarity (a b : String) : ℚ :=
  let words_a := promptWords a
  let words_b := promptWords b
  if words_a = ∅ ∨ words_b = ∅ then 0
  else ((words_a ∩ words_b).card : ℚ) / ((words_a ∪ words_b).card : ℚ)

/-- One element of `RequestDeduplicator.recent_prompts` (lines 488-492). -/
structure DedupEntry where
  normalized : String
  engine : String
  time : ℚ
deriving DecidableEq, Repr

/-- The result dict of `check_and_record` (lines 454-459). -/
structure DedupResult where
  is_duplicate : Bool
  is_similar : Bool
  similarity_score : ℚ
  recommendation : String
deriving DecidableEq, Repr

/-- Initial value of the result dict (lines 454-459). -/
def initDedupResult : DedupResult :=
  { is_duplicate := false, is_similar := false, similarity_score := 0,
    recommendation := "proceed" }

/-- The `for entry in self.recent_prompts` loop of `check_and_record`
(lines 462-485).  Entries older than the cutoff or for a different engine are
skipped; an exact normalized match sets `is_duplicate`, similarity 1.0 and
recommendation `"skip_or_delay"` and breaks; otherwise the running maximal
similarity and the `is_similar` flag are updated. -/
def checkRecent (threshold cutoff : ℚ) (engine norm : String) :
    List DedupEntry → DedupResult → DedupResult
  | [], r => r
  | e :: rest, r =>
    if e.time < cutoff then
      checkRecent threshold cutoff engine norm rest r
    else if e.engine ≠ engine then
      checkRecent threshold cutoff engine norm rest r
    else if e.normalized = norm then
      { r with is_duplicate := true, similarity_score := 1,
               recommendation := "skip_or_delay" }
    else
      let s := calculate_similarity e.normalized norm
      let r1 := if r.similarity_score < s then { r with similarity_score := s } else r
      let r2 := if threshold < s then
          { r1 with is_similar := true, recommendation := "add_delay" } else r1
      checkRecent threshold cutoff engine norm rest r2

/-- `RequestDeduplicator` state: the ring buffer (deque, `maxlen=50`) plus its
configuration (lines 416-419; defaults `similarity_threshold=0.85`,
`window_minutes=60`). -/
structure RequestDeduplicator where
  recent_prompts : List DedupEntry
  similarity_threshold : ℚ := 85/100
  window_minutes : ℚ := 60
deriving DecidableEq, Repr

/-- `deque(maxlen=50).append`: append on the right, dropping from the left
when the buffer exceeds the cap. -/
def appendMaxlen (cap : ℕ) (l : List DedupEntry) (e : DedupEntry) : List DedupEntry :=
  let l1 := l ++ [e]
  l1.drop (l1.length - cap)

/-- `RequestDeduplicator.check_and_record` (lines 438-494): compute the result
dict against the buffered records, then record the new normalized prompt.
Time is measured in minutes, matching `timedelta(minutes=window_minutes)`. -/
def check_and_record (d : RequestDeduplicator) (now : ℚ) (prompt engine : String) :
    DedupResult × RequestDeduplicator :=
  let normalized := normalize_prompt prompt
  let cutoff := now - d.window_minutes
  let result := checkRecent d.similarity_threshold cutoff engine normalized
      d.recent_prompts initDedupResult
  let entry : DedupEntry := { normalized := normalized, engine := engine, time := now }
  (result, { d with recent_prompts := appendMaxlen 50 d.recent_prompts entry })

/- ---------- helper lemmas about the dedup loop ---------- -/

/-- If some buffered record for the same engine inside the window matches the
normalized prompt exactly, the loop ends with `is_duplicate = true`,
similarity 1.0 and recommendation `"skip_or_delay"`, whatever the running
result was. -/
theorem checkRecent_exact (threshold cutoff : ℚ) (engine norm : String) :
    ∀ (l : List DedupEntry) (r : DedupResult),
      (∃ e ∈ l, ¬ e.time < cutoff ∧ e.engine = engine ∧ e.normalized = norm) →
      (checkRecent threshold cutoff engine norm l r).is_duplicate = true ∧
      (checkRecent threshold cutoff engine norm l r).similarity_score = 1 ∧
      (checkRecent threshold cutoff engine norm l r).recommendation = "skip_or_delay" := by
  intro l
  induction l with
  | nil => intro r h; obtain ⟨e, he, -⟩ := h; exact absurd he (List.not_mem_nil e)
  | cons a rest ih =>
    intro r h
    obtain ⟨e, he, htime, heng, hnorm⟩ := h
    by_cases h1 : a.time < cutoff
    · have hrest : e ∈ rest := by
        rcases List.mem_cons.mp he with rfl | h'
        · exact absurd h1 htime
        · exact h'
      simpa [checkRecent, h1] using ih r ⟨e, hrest, htime, heng, hnorm⟩
    · by_cases h2 : a.engine ≠ engine
      · have hrest : e ∈ rest := by
          rcases List.mem_cons.mp he with rfl | h'
          · exact absurd heng h2
          · exact h'
        simpa [checkRecent, h1, h2] using ih r ⟨e, hrest, htime, heng, hnorm⟩
      · by_cases h3 : a.normalized = norm
        · simp [checkRecent, h1, h2, h3]
        · have hrest : e ∈ rest := by
            rcases List.mem_cons.mp he with rfl | h'
            · exact absurd hnorm h3
            · exact h'
          simp only [checkRecent, if_neg h1, if_neg h2, if_neg h3]
          exact ih _ ⟨e, hrest, htime, heng, hnorm⟩

/-- If every buffered record's similarity against the normalized prompt is at
most the threshold, the loop never sets `is_similar`. -/
theorem checkRecent_no_similar (threshold cutoff : ℚ) (engine norm : String) :
    ∀ (l : List DedupEntry) (r : DedupResult),
      r.is_similar = false →
      (∀ e ∈ l, calculate_similarity e.normalized norm ≤ threshold) →
      (checkRecent threshold cutoff engine norm l r).is_similar = false := by
  intro l
  induction l with
  | nil => intro r hr _; simpa [checkRecent] using hr
  | cons a rest ih =>
    intro r hr hsim
    have hsa : calculate_similarity a.normalized norm ≤ threshold :=
      hsim a (List.mem_cons_self a rest)
    have hsrest : ∀ e ∈ rest, calculate_similarity e.normalized norm ≤ threshold :=
      fun e he => hsim e (List.mem_cons_of_mem a he)
    by_cases h1 : a.time < cutoff
    · simpa [checkRecent, h1] using ih r hr hsrest
    · by_cases h2 : a.engine ≠ engine
      · simpa [checkRecent, h1, h2] using ih r hr hsrest
      · by_cases h3 : a.normalized = norm
        · simpa [checkRecent, h1, h2, h3] using hr
        · have hnlt : ¬ threshold < calculate_similarity a.normalized norm :=
            not_lt.mpr hsa
          by_cases h4 : r.similarity_score < calculate_similarity a.normalized norm
          · simpa [checkRecent, h1, h2, h3, h4, hnlt] using ih _ (by simpa using hr) hsrest
          · simpa [checkRecent, h1, h2, h3, h4, hnlt] using ih _ (by simpa using hr) hsrest

/-- The empty string has an empty word set. -/
theorem promptWords_empty : promptWords "" = ∅ := by decide

/-- Similarity against an empty-word-set prompt is 0 (the guard in
`_calculate_similarity`). -/
theorem calculate_similarity_empty_right (s : String) :
    calculate_similarity s "" = 0 := by
  simp [calculate_similarity, promptWords_empty]

/- ---------- Claim C4 ---------- -/

/-- Concrete C4 instance: the buffer holds a record with normalized text
"hello world" for engine "chatgpt" at time 0; the prompt "Hello  World"
(which normalizes to "hello world") is checked at time 0. -/
def c4Dedup : RequestDeduplicator :=
  { recent_prompts := [{ normalized := "hello world", engine := "chatgpt", time := 0 }] }

/-- The result of the concrete C4 check. -/
def c4Check : DedupResult := (check_and_record c4Dedup 0 "Hello  World" "chatgpt").1

theorem c4Check_eval :
    c4Check.is_duplicate = true ∧ c4Check.similarity_score = 1 ∧
    c4Check.recommendation = "skip_or_delay" := by
  have h := checkRecent_exact c4Dedup.similarity_threshold (0 - c4Dedup.window_minutes)
      "chatgpt" (normalize_prompt "Hello  World") c4Dedup.recent_prompts initDedupResult
      ⟨{ normalized := "hello world", engine := "chatgpt", time := 0 },
        by simp [c4Dedup], by norm_num [c4Dedup], rfl, by decide⟩
  simpa [c4Check, check_and_record] using h

/-- Claim C4 (counterexample): at a concrete input satisfying the claim's
premise (a stored record for the same target, within the window, whose
normalized text equals the normalized form of the checked prompt), the code
returns `is_duplicate = true` and similarity 1.0, but the recommendation is
the string "skip_or_delay", not "skip" as the claim states. -/
theorem C4_counterexample :
    c4Check.is_duplicate = true ∧ c4Check.similarity_score = 1 ∧
    c4Check.recommendation ≠ "skip" := by
  obtain ⟨h1, h2, h3⟩ := c4Check_eval
  refine ⟨h1, h2, ?_⟩
  rw [h3]
  decide

/-- Claim C4 (amended): for every prompt `b` and target `T`, if some prompt
`a` was previously recorded for `T` within the rolling window and the
normalized form of `b` equals the stored normalized form of `a`, then the
check returns `is_duplicate = true` with similarity 1.0 and recommendation
"skip_or_delay". -/
theorem C4_theorem (d : RequestDeduplicator) (now : ℚ) (prompt engine : String)
    (e : DedupEntry) (he : e ∈ d.recent_prompts) (heng : e.engine = engine)
    (htime : ¬ e.time < now - d.window_minutes)
    (hnorm : e.normalized = normalize_prompt prompt) :
    (check_and_record d now prompt engine).1.is_duplicate = true ∧
    (check_and_record d now prompt engine).1.similarity_score = 1 ∧
    (check_and_record d now prompt engine).1.recommendation = "skip_or_delay" := by
  have h := checkRecent_exact d.similarity_threshold (now - d.window_minutes)
      engine (normalize_prompt prompt) d.recent_prompts initDedupResult
      ⟨e, he, htime, heng, hnorm⟩
  simpa [check_and_record] using h

/-- Claim C4 (witness): the amended theorem applied at the concrete C4
instance. -/
theorem C4_witness :
    (({ normalized := "hello world", engine := "chatgpt", time := 0 } : DedupEntry)
        ∈ c4Dedup.recent_prompts ∧
      ¬ (({ normalized := "hello world", engine := "chatgpt", time := 0 } : DedupEntry)).time
          < 0 - c4Dedup.window_minutes ∧
      "hello world" = normalize_prompt "Hello  World") ∧
    ((check_and_record c4Dedup 0 "Hello  World" "chatgpt").1.is_duplicate = true ∧
     (check_and_record c4Dedup 0 "Hello  World" "chatgpt").1.similarity_score = 1 ∧
     (check_and_record c4Dedup 0 "Hello  World" "chatgpt").1.recommendation = "skip_or_delay") :=
  ⟨⟨by simp [c4Dedup], by norm_num [c4Dedup], by decide⟩,
    C4_theorem c4Dedup 0 "Hello  World" "chatgpt"
      { normalized := "hello world", engine := "chatgpt", time := 0 }
      (by simp [c4Dedup]) rfl (by norm_num [c4Dedup]) (by decide)⟩

/- ---------- Claim C5 ---------- -/

/-- First prompt of the C5 scenario. -/
def c5Prompt1 : String := "What is the capital of France?"

/-- Second prompt of the C5 scenario. -/
def c5Prompt2 : String := "what is the capital of france"

/-- First check-and-record of the C5 scenario: fresh deduplicator, time 0. -/
def c5First : DedupResult × RequestDeduplicator :=
  check_and_record { recent_prompts := [] } 0 c5Prompt1 "chatgpt"

/-- Second check of the C5 scenario: same target, same time (well within the
60-minute window). -/
def c5Second : DedupResult × RequestDeduplicator :=
  check_and_record c5First.2 0 c5Prompt2 "chatgpt"

theorem c5First_buffer :
    c5First.2.recent_prompts =
      [{ normalized := "what is the capital of france?", engine := "chatgpt", time := 0 }] := by
  have h : normalize_prompt "What is the capital of France?" =
      "what is the capital of france?" := by decide
  simp [c5First, check_and_record, appendMaxlen, c5Prompt1, h]

theorem c5_similarity :
    calculate_similarity "what is the capital of france?" "what is the capital of france" =
      5/7 := by
  have hcap : (promptWords "what is the capital of france?"
      ∩ promptWords "what is the capital of france").card = 5 := by decide
  have hcup : (promptWords "what is the capital of france?"
      ∪ promptWords "what is the capital of france").card = 7 := by decide
  have hne : ¬ (promptWords "what is the capital of france?" = ∅ ∨
      promptWords "what is the capital of france" = ∅) := by decide
  rw [calculate_similarity]
  rw [if_neg hne, hcap, hcup]
  norm_num

theorem c5Second_eval :
    c5Second.1 = { is_duplicate := false, is_similar := false,
                   similarity_score := 5/7, recommendation := "proceed" } := by
  have hn2 : normalize_prompt c5Prompt2 = "what is the capital of france" := by decide
  have hthr : c5First.2.similarity_threshold = 85/100 := rfl
  have hwin : c5First.2.window_minutes = 60 := rfl
  have h0 : c5Second.1 =
      checkRecent (85/100) (0 - 60) "chatgpt" "what is the capital of france"
        c5First.2.recent_prompts initDedupResult := by
    simp [c5Second, check_and_record, hthr, hwin, hn2]
  rw [h0, c5First_buffer]
  rw [checkRecent]
  rw [if_neg (by norm_num : ¬ ((0:ℚ) < 0 - 60))]
  rw [if_neg (by decide : ¬ ("chatgpt" ≠ "chatgpt"))]
  rw [if_neg (by decide :
    ¬ ("what is the capital of france?" = "what is the capital of france"))]
  simp only [c5_similarity, initDedupResult]
  rw [if_pos (by norm_num : (0:ℚ) < 5/7)]
  rw [if_neg (by norm_num : ¬ ((85:ℚ)/100 < 5/7))]
  rw [checkRecent]

/-- Claim C5 (counterexample): after recording "What is the capital of
France?" for chatgpt, checking "what is the capital of france" for the same
target within the window returns `is_duplicate = false` — the claim says it
returns true.  (Normalization lowercases and collapses whitespace but keeps
the trailing "?", so the normalized texts differ.) -/
theorem C5_counterexample : c5Second.1.is_duplicate = false := by
  rw [c5Second_eval]

/-- Claim C5 (amended): in the scenario of the claim, the second check
returns `is_duplicate = false` and `is_similar = false` with Jaccard
similarity 5/7 (below the 0.85 threshold): normalization preserves
punctuation, so the two prompts do not match exactly. -/
theorem C5_theorem :
    c5Second.1.is_duplicate = false ∧ c5Second.1.is_similar = false ∧
    c5Second.1.similarity_score = 5/7 ∧ c5Second.1.recommendation = "proceed" := by
  rw [c5Second_eval]
  exact ⟨rfl, rfl, rfl, rfl⟩

/- ---------- Claim C10 ---------- -/

/-- Claim C10: a prompt that normalizes to the empty string has Jaccard
similarity 0 against every buffered record (the empty-word-set guard), is
never flagged `is_similar`; yet if an empty-normalized record for the same
target is buffered within the window, the check still returns
`is_duplicate = true` with similarity 1.0 through the exact-match path. -/
theorem C10_theorem (d : RequestDeduplicator) (now : ℚ) (prompt engine : String)
    (hthresh : 0 ≤ d.similarity_threshold)
    (hempty : normalize_prompt prompt = "") :
    (∀ e ∈ d.recent_prompts,
        calculate_similarity e.normalized (normalize_prompt prompt) = 0) ∧
    (check_and_record d now prompt engine).1.is_similar = false ∧
    ((∃ e ∈ d.recent_prompts,
        ¬ e.time < now - d.window_minutes ∧ e.engine = engine ∧ e.normalized = "") →
      (check_and_record d now prompt engine).1.is_duplicate = true ∧
      (check_and_record d now prompt engine).1.similarity_score = 1) := by
  refine ⟨?_, ?_, ?_⟩
  · intro e _
    rw [hempty]
    exact calculate_similarity_empty_right e.normalized
  · have h := checkRecent_no_similar d.similarity_threshold (now - d.window_minutes)
      engine (normalize_prompt prompt) d.recent_prompts initDedupResult rfl
      (fun e _ => by
        rw [hempty, calculate_similarity_empty_right e.normalized]; exact hthresh)
    simpa [check_and_record] using h
  · intro hex
    obtain ⟨e, he, htime, heng, hnorm⟩ := hex
    have h := checkRecent_exact d.similarity_threshold (now - d.window_minutes)
      engine (normalize_prompt prompt) d.recent_prompts initDedupResult
      ⟨e, he, htime, heng, by rw [hnorm, hempty]⟩
    have h' := h.1
    have h'' := h.2.1
    constructor
    · simpa [check_and_record] using h'
    · simpa [check_and_record] using h''

/-- Concrete C10 instance: buffer holds an empty-normalized record for
"chatgpt" at time 0; the whitespace-only prompt "   " is checked at time 0. -/
def c10Dedup : RequestDeduplicator :=
  { recent_prompts := [{ normalized := "", engine := "chatgpt", time := 0 }] }

/-- Claim C10 (witness): the theorem applied at the concrete C10 instance. -/
theorem C10_witness :
    ((0:ℚ) ≤ c10Dedup.similarity_threshold ∧ normalize_prompt "   " = "") ∧
    ((∀ e ∈ c10Dedup.recent_prompts,
        calculate_similarity e.normalized (normalize_prompt "   ") = 0) ∧
     (check_and_record c10Dedup 0 "   " "chatgpt").1.is_similar = false ∧
     ((∃ e ∈ c10Dedup.recent_prompts,
        ¬ e.time < 0 - c10Dedup.window_minutes ∧ e.engine = "chatgpt" ∧ e.normalized = "") →
      (check_and_record c10Dedup 0 "   " "chatgpt").1.is_duplicate = true ∧
      (check_and_record c10Dedup 0 "   " "chatgpt").1.similarity_score = 1)) :=
  ⟨⟨by norm_num [c10Dedup], by decide⟩,
    C10_theorem c10Dedup 0 "   " "chatgpt" (by norm_num [c10Dedup]) (by decide)⟩

/- ===================== Engine cooldown tracking (worker_v2.py) ===================== -/

/-- `WorkerConfig.engine_cooldowns` (worker_v2.py lines 92-99) combined with
the `.get(engine, 15)` default used at line 683. -/
def engineCooldownBase (engine : String) : ℚ :=
  if engine = "chatgpt" then 30
  else if engine = "perplexity" then 20
  else if engine = "gemini" then 15
  else if engine = "grok" then 15
  else 15

/-- The per-engine rate-limit state of `RPAWorkerV2`: `engine_last_request`
and `engine_error_count` dicts, modelled as total functions with the
`.get(_, 0)` defaults used by the code. -/
structure EngineRateState where
  engine_last_request : String → ℚ
  engine_error_count : String → ℤ

/-- Fresh worker state: both dicts empty (`.get` returns 0 everywhere). -/
def initEngineRateState : EngineRateState :=
  { engine_last_request := fun _ => 0, engine_error_count := fun _ => 0 }

/-- `RPAWorkerV2.record_engine_request` (lines 699-708): stamp the request
time; on success decrement the error counter with floor 0 (a success for an
engine with no recorded errors leaves the counter at 0, matching the
`if engine in self.engine_error_count` guard), on failure increment it. -/
def record_engine_request (now : ℚ) (engine : String) (success : Bool)
    (st : EngineRateState) : EngineRateState :=
  { engine_last_request := fun e =>
      if e = engine then now else st.engine_last_request e,
    engine_error_count := fun e =>
      if e = engine then
        (if success then max 0 (st.engine_error_count e - 1)
         else st.engine_error_count e + 1)
      else st.engine_error_count e }

/-- `RPAWorkerV2.get_engine_cooldown_remaining` (lines 679-692): effective
cooldown is the base plus `10 * error_count` when the counter is positive;
remaining time is clamped at 0. -/
def get_engine_cooldown_remaining (now : ℚ) (engine : String)
    (st : EngineRateState) : ℚ :=
  let last_request := st.engine_last_request engine
  let cooldown := engineCooldownBase engine +
    (if 0 < st.engine_error_count engine
     then (st.engine_error_count engine : ℚ) * 10 else 0)
  let time_since := now - last_request
  max 0 (cooldown - time_since)

/-- `RPAWorkerV2.can_process_engine` (lines 694-697). -/
def can_process_engine (now : ℚ) (engine : String) (st : EngineRateState) :
    Bool × ℚ :=
  let remaining := get_engine_cooldown_remaining now engine st
  (decide (remaining ≤ 0), remaining)

/-- `k` consecutive `record_engine_request(T, success=False)` calls at time
`t`. -/
def recordFailures (t : ℚ) (engine : String) (k : ℕ) (st : EngineRateState) :
    EngineRateState :=
  Nat.rec st (fun _ s => record_engine_request t engine false s) k

theorem recordFailures_last (t : ℚ) (engine : String) (st : EngineRateState) :
    ∀ k : ℕ, 1 ≤ k →
      (recordFailures t engine k st).engine_last_request engine = t := by
  intro k hk
  cases k with
  | zero => exact absurd hk (by norm_num)
  | succ n => simp [recordFailures, record_engine_request]

theorem recordFailures_count (t : ℚ) (engine : String) (st : EngineRateState) :
    ∀ k : ℕ,
      (recordFailures t engine k st).engine_error_count engine =
        st.engine_error_count engine + k := by
  intro k
  induction k with
  | zero => simp [recordFailures]
  | succ n ih =>
    have hstep : recordFailures t engine (n + 1) st =
        record_engine_request t engine false (recordFailures t engine n st) := rfl
    rw [hstep]
    show (if engine = engine then
        (recordFailures t engine n st).engine_error_count engine + 1
      else (recordFailures t engine n st).engine_error_count engine) = _
    rw [if_pos rfl, ih]
    push_cast
    ring

/-- The base cooldown is positive for every engine name. -/
theorem engineCooldownBase_pos (engine : String) : 0 < engineCooldownBase engine := by
  rw [engineCooldownBase]
  repeat' split
  all_goals norm_num

/-- Claim C3: after `k ≥ 1` consecutive failure recordings for target `T`
(starting from a zero error count), an immediate cooldown query reports
exactly `base_cooldown(T) + 10*k` seconds remaining and the engine is not
ready; moreover each recorded success decrements the per-target error counter
by 1 with floor 0 (it does not shrink the accumulated cooldown directly). -/
theorem C3_theorem (T : String) (k : ℕ) (hk : 1 ≤ k) (t : ℚ)
    (st : EngineRateState) (h0 : st.engine_error_count T = 0) :
    get_engine_cooldown_remaining t T (recordFailures t T k st) =
      engineCooldownBase T + 10 * k ∧
    (can_process_engine t T (recordFailures t T k st)).1 = false ∧
    (∀ (st' : EngineRateState) (t' : ℚ),
      (record_engine_request t' T true st').engine_error_count T =
        max 0 (st'.engine_error_count T - 1)) := by
  have hcount := recordFailures_count t T st k
  rw [h0, zero_add] at hcount
  have hlast := recordFailures_last t T st k hk
  have hkpos : (0:ℤ) < (k:ℤ) := by exact_mod_cast hk
  have hbase := engineCooldownBase_pos T
  have hsum : 0 < engineCooldownBase T + 10 * (k:ℚ) := by
    have hk0 : (0:ℚ) ≤ (k:ℚ) := by positivity
    linarith
  have hrem : get_engine_cooldown_remaining t T (recordFailures t T k st) =
      engineCooldownBase T + 10 * k := by
    simp only [get_engine_cooldown_remaining, hcount, hlast, if_pos hkpos]
    rw [sub_self, sub_zero, max_eq_right]
    · push_cast
      ring
    · push_cast
      linarith
  refine ⟨hrem, ?_, ?_⟩
  · show decide (get_engine_cooldown_remaining t T (recordFailures t T k st) ≤ 0) = false
    rw [hrem]
    exact decide_eq_false (not_le.mpr hsum)
  · intro st' t'
    show (if T = T then max 0 (st'.engine_error_count T - 1)
          else st'.engine_error_count T) = _
    rw [if_pos rfl]

/-- Claim C3 (witness): two consecutive failures for "chatgpt" recorded at
time 5 on a fresh worker state leave 30 + 20 seconds of cooldown. -/
theorem C3_witness :
    (1 ≤ 2 ∧ initEngineRateState.engine_error_count "chatgpt" = 0) ∧
    (get_engine_cooldown_remaining 5 "chatgpt"
        (recordFailures 5 "chatgpt" 2 initEngineRateState) =
      engineCooldownBase "chatgpt" + 10 * (2:ℕ) ∧
    (can_process_engine 5 "chatgpt"
        (recordFailures 5 "chatgpt" 2 initEngineRateState)).1 = false ∧
    (∀ (st' : EngineRateState) (t' : ℚ),
      (record_engine_request t' "chatgpt" true st').engine_error_count "chatgpt" =
        max 0 (st'.engine_error_count "chatgpt" - 1))) :=
  ⟨⟨by decide, rfl⟩, C3_theorem "chatgpt" 2 (by decide) 5 initEngineRateState rfl⟩

/- ===================== RequestQueue (anti_detection.py) ===================== -/

/-- `RateLimitConfig` (anti_detection.py lines 36-59).  `night_hours = (1, 6)`
is modelled as the two fields `night_low`/`night_high`.  Delay-valued fields
are real numbers (Python floats under `**`). -/
structure RateLimitConfig where
  min_delay_seconds : ℝ := 8
  max_delay_seconds : ℝ := 20
  burst_window_seconds : ℚ := 300
  max_requests_per_window : ℕ := 8
  enable_backoff : Bool := true
  backoff_base : ℝ := 3/2
  max_backoff_minutes : ℝ := 10
  add_thinking_pauses : Bool := true
  vary_session_patterns : Bool := true
  reduce_night_activity : Bool := true
  night_low : ℕ := 1
  night_high : ℕ := 6

/-- Mutable state of `RequestQueue` (lines 103-114): the bounded request
history (`deque(maxlen=100)`), the fractional backoff level and the
per-engine dicts (modelled with their `.get(_, 0)` defaults). -/
structure RequestQueueState where
  request_history : List ℚ
  last_request_time : Option ℚ
  current_backoff_level : ℚ
  engine_last_request : String → ℚ
  engine_request_counts : String → ℕ

/-- `RequestQueue.__init__`: empty history, backoff level 0, empty dicts. -/
def initRequestQueueState : RequestQueueState :=
  { request_history := [], last_request_time := none, current_backoff_level := 0,
    engine_last_request := fun _ => 0, engine_request_counts := fun _ => 0 }

/-- `deque(maxlen=cap).append` for rational timestamps. -/
def appendHistory (cap : ℕ) (l : List ℚ) (t : ℚ) : List ℚ :=
  let l1 := l ++ [t]
  l1.drop (l1.length - cap)

/-- `RequestQueue.record_request` (lines 187-202): stamp the history and the
per-engine dicts; a success lowers `current_backoff_level` by half a step
with floor 0, a failure raises it by 1 capped at 5. -/
def record_request (now : ℚ) (engine : String) (success : Bool)
    (st : RequestQueueState) : RequestQueueState :=
  { request_history := appendHistory 100 st.request_history now,
    last_request_time := some now,
    current_backoff_level :=
      if success then max 0 (st.current_backoff_level - 1/2)
      else min 5 (st.current_backoff_level + 1),
    engine_last_request := fun e =>
      if e = engine then now else st.engine_last_request e,
    engine_request_counts := fun e =>
      if e = engine then st.engine_request_counts e + 1
      else st.engine_request_counts e }

/-- `RequestQueue._count_recent_requests` (lines 182-185): number of history
timestamps strictly newer than `now - window_seconds`. -/
def count_recent_requests (now window_seconds : ℚ) (st : RequestQueueState) : ℕ :=
  (st.request_history.filter (fun t => decide (now - window_seconds < t))).length

/-- The random draws consumed by one `calculate_delay` call (lines 116-180):
the Gaussian base sample, `random.uniform(30, 60)` for the burst branch,
`random.uniform(2, 5)` for the engine-cooldown branch, and the 20%-probability
thinking pause `random.uniform(5, 15)`. -/
structure DelayDraws where
  gauss : ℝ
  burst : ℝ
  engineJitter : ℝ
  thinking : Bool
  thinkingPause : ℝ

/-- Lines 131-136: Gaussian base sample clamped into
`[min_delay_seconds, max_delay_seconds]`. -/
noncomputable def clampGauss (cfg : RateLimitConfig) (g : ℝ) : ℝ :=
  max cfg.min_delay_seconds (min cfg.max_delay_seconds g)

/-- Lines 139-144: when backoff is enabled and the level is positive,
multiply by `backoff_base ** level` (float power) and cap at
`max_backoff_minutes * 60`. -/
noncomputable def applyBackoff (cfg : RateLimitConfig) (level base : ℝ) : ℝ :=
  if cfg.enable_backoff = true ∧ 0 < level then
    min (base * cfg.backoff_base ^ level) (cfg.max_backoff_minutes * 60)
  else base

/-- Lines 147-154: when at least `max_requests_per_window` requests fall in
the burst window, raise the delay to at least the `uniform(30, 60)` draw. -/
noncomputable def applyBurst (cfg : RateLimitConfig) (recent : ℕ)
    (burstDraw base : ℝ) : ℝ :=
  if cfg.max_requests_per_window ≤ recent then max base burstDraw else base

/-- Lines 157-162: double the delay during the configured night hours. -/
noncomputable def applyNight (cfg : RateLimitConfig) (hour : ℕ) (base : ℝ) : ℝ :=
  if cfg.reduce_night_activity = true ∧ cfg.night_low ≤ hour ∧ hour < cfg.night_high
  then base * 2 else base

/-- Lines 164-170: enforce the 15-second same-engine spacing: if the time
since the engine's last request is under 15s, raise the delay to the missing
gap plus a `uniform(2, 5)` jitter. -/
noncomputable def applyEngineCooldown (time_since jitter base : ℝ) : ℝ :=
  if time_since < 15 then max base ((15 - time_since) + jitter) else base

/-- Lines 172-178: with 20% probability add a `uniform(5, 15)` thinking
pause. -/
noncomputable def applyThinking (cfg : RateLimitConfig) (think : Bool)
    (pause base : ℝ) : ℝ :=
  if cfg.add_thinking_pauses = true ∧ think = true then base + pause else base

/-- `RequestQueue.calculate_delay` (lines 116-180): the full delay pipeline,
as a function of the configuration, the queue state, the wall clock (`now`,
`hour`) and the random draws. -/
noncomputable def calculate_delay (cfg : RateLimitConfig) (st : RequestQueueState)
    (engine : String) (now : ℚ) (hour : ℕ) (d : DelayDraws) : ℝ :=
  let base1 := clampGauss cfg d.gauss
  let base2 := applyBackoff cfg ((st.current_backoff_level : ℝ)) base1
  let recent := count_recent_requests now cfg.burst_window_seconds st
  let base3 := applyBurst cfg recent d.burst base2
  let base4 := applyNight cfg hour base3
  let base5 := applyEngineCooldown ((now : ℝ) - ((st.engine_last_request engine : ℚ) : ℝ))
      d.engineJitter base4
  applyThinking cfg d.thinking d.thinkingPause base5

/- ---------- delay bounds ---------- -/

theorem clampGauss_bounds (cfg : RateLimitConfig) (g : ℝ)
    (hmm : cfg.min_delay_seconds ≤ cfg.max_delay_seconds) :
    cfg.min_delay_seconds ≤ clampGauss cfg g ∧
    clampGauss cfg g ≤ cfg.max_delay_seconds := by
  constructor
  · exact le_max_left _ _
  · exact max_le hmm (min_le_left _ _)

theorem applyBackoff_lower (cfg : RateLimitConfig) (level base : ℝ)
    (hbase1 : 1 ≤ cfg.backoff_base) (hlvl0 : 0 ≤ level)
    (hb : cfg.min_delay_seconds ≤ base) (hb0 : 0 ≤ base)
    (hbk : cfg.min_delay_seconds ≤ cfg.max_backoff_minutes * 60) :
    cfg.min_delay_seconds ≤ applyBackoff cfg level base := by
  rw [applyBackoff]
  split
  · refine le_min ?_ hbk
    have hmult : 1 ≤ cfg.backoff_base ^ level := by
      have h0 := Real.rpow_zero cfg.backoff_base
      have := Real.rpow_le_rpow_of_exponent_le hbase1 hlvl0
      rw [h0] at this
      exact this
    calc cfg.min_delay_seconds ≤ base := hb
      _ ≤ base * cfg.backoff_base ^ level := le_mul_of_one_le_right hb0 hmult
  · exact hb

theorem applyBackoff_upper (cfg : RateLimitConfig) (level base : ℝ)
    (hbase1 : 1 ≤ cfg.backoff_base) (hlvl0 : 0 ≤ level) (hlvl5 : level ≤ 5)
    (hb : base ≤ cfg.max_delay_seconds) (hb0 : 0 ≤ base) :
    applyBackoff cfg level base ≤ cfg.backoff_base ^ (5:ℕ) * cfg.max_delay_seconds := by
  have hmax0 : 0 ≤ cfg.max_delay_seconds := le_trans hb0 hb
  have hpow1 : (1:ℝ) ≤ cfg.backoff_base ^ (5:ℕ) := one_le_pow₀ hbase1
  rw [applyBackoff]
  split
  · refine le_trans (min_le_left _ _) ?_
    have hlev : cfg.backoff_base ^ level ≤ cfg.backoff_base ^ (5:ℕ) := by
      have h5 : cfg.backoff_base ^ level ≤ cfg.backoff_base ^ ((5:ℕ):ℝ) := by
        refine Real.rpow_le_rpow_of_exponent_le hbase1 ?_
        push_cast
        exact hlvl5
      rwa [Real.rpow_natCast] at h5
    have hlev0 : 0 ≤ cfg.backoff_base ^ level :=
      Real.rpow_nonneg (le_trans zero_le_one hbase1) level
    calc base * cfg.backoff_base ^ level
        ≤ cfg.max_delay_seconds * cfg.backoff_base ^ (5:ℕ) :=
          mul_le_mul hb hlev hlev0 hmax0
      _ = cfg.backoff_base ^ (5:ℕ) * cfg.max_delay_seconds := mul_comm _ _
  · calc base ≤ cfg.max_delay_seconds := hb
      _ ≤ cfg.backoff_base ^ (5:ℕ) * cfg.max_delay_seconds :=
          le_mul_of_one_le_left hmax0 hpow1

theorem applyBurst_lower (cfg : RateLimitConfig) (recent : ℕ) (burstDraw base : ℝ) :
    base ≤ applyBurst cfg recent burstDraw base := by
  rw [applyBurst]
  split
  · exact le_max_left _ _
  · exact le_rfl

theorem applyBurst_upper (cfg : RateLimitConfig) (recent : ℕ) (burstDraw base M : ℝ)
    (hb : base ≤ M) (hM : 0 ≤ M) (hdraw : burstDraw ≤ 60) :
    applyBurst cfg recent burstDraw base ≤ M + 60 := by
  rw [applyBurst]
  split
  · exact max_le (by linarith) (by linarith)
  · linarith

theorem applyNight_lower (cfg : RateLimitConfig) (hour : ℕ) (base : ℝ)
    (hb0 : 0 ≤ base) :
    base ≤ applyNight cfg hour base := by
  rw [applyNight]
  split
  · linarith
  · exact le_rfl

theorem applyNight_upper (cfg : RateLimitConfig) (hour : ℕ) (base M : ℝ)
    (hb : base ≤ M) (hM : 0 ≤ M) :
    applyNight cfg hour base ≤ 2 * M := by
  rw [applyNight]
  split
  · linarith
  · linarith

theorem applyEngineCooldown_lower (time_since jitter base : ℝ) :
    base ≤ applyEngineCooldown time_since jitter base := by
  rw [applyEngineCooldown]
  split
  · exact le_max_left _ _
  · exact le_rfl

theorem applyEngineCooldown_upper (time_since jitter base M : ℝ)
    (hb : base ≤ M) (hM : 0 ≤ M) (hts : 0 ≤ time_since) (hjit : jitter ≤ 5) :
    applyEngineCooldown time_since jitter base ≤ M + 20 := by
  rw [applyEngineCooldown]
  split
  · exact max_le (by linarith) (by linarith)
  · linarith

theorem applyThinking_lower (cfg : RateLimitConfig) (think : Bool) (pause base : ℝ)
    (hp : 0 ≤ pause) :
    base ≤ applyThinking cfg think pause base := by
  rw [applyThinking]
  split
  · linarith
  · exact le_rfl

theorem applyThinking_upper (cfg : RateLimitConfig) (think : Bool) (pause base M : ℝ)
    (hb : base ≤ M) (hp : pause ≤ 15) :
    applyThinking cfg think pause base ≤ M + 15 := by
  rw [applyThinking]
  split
  · linarith
  · linarith

/-- Claim C6: for every engine and every pacing state with backoff level in
[0,5], the computed delay is never negative, is at least
`min_delay_seconds`, and is bounded above by
`2 * (backoff_base^5 * max_delay_seconds + 60) + 20 + 15` — twice (night
doubling) the capped backoff component `backoff_base^5 * max_delay` plus the
burst draw (≤ 60s), plus the engine-cooldown extension (≤ 15 + 5s) and the
thinking pause (≤ 15s). -/
theorem C6_theorem (cfg : RateLimitConfig) (st : RequestQueueState)
    (engine : String) (now : ℚ) (hour : ℕ) (d : DelayDraws)
    (hmin0 : 0 ≤ cfg.min_delay_seconds)
    (hminmax : cfg.min_delay_seconds ≤ cfg.max_delay_seconds)
    (hbase1 : 1 ≤ cfg.backoff_base)
    (hbk : cfg.min_delay_seconds ≤ cfg.max_backoff_minutes * 60)
    (hlvl0 : 0 ≤ st.current_backoff_level)
    (hlvl5 : st.current_backoff_level ≤ 5)
    (hlast : st.engine_last_request engine ≤ now)
    (hburst : d.burst ≤ 60)
    (hjit : d.engineJitter ≤ 5)
    (hpause1 : 5 ≤ d.thinkingPause) (hpause2 : d.thinkingPause ≤ 15) :
    0 ≤ calculate_delay cfg st engine now hour d ∧
    cfg.min_delay_seconds ≤ calculate_delay cfg st engine now hour d ∧
    calculate_delay cfg st engine now hour d ≤
      2 * (cfg.backoff_base ^ (5:ℕ) * cfg.max_delay_seconds + 60) + 20 + 15 := by
  have hlvl0R : (0:ℝ) ≤ (st.current_backoff_level : ℝ) := by exact_mod_cast hlvl0
  have hlvl5R : ((st.current_backoff_level : ℚ) : ℝ) ≤ 5 := by exact_mod_cast hlvl5
  have hlastR : ((st.engine_last_request engine : ℚ) : ℝ) ≤ (now : ℝ) := by
    exact_mod_cast hlast
  obtain ⟨hg1, hg2⟩ := clampGauss_bounds cfg d.gauss hminmax
  have hg0 : 0 ≤ clampGauss cfg d.gauss := le_trans hmin0 hg1
  have hb2lo := applyBackoff_lower cfg _ _ hbase1 hlvl0R hg1 hg0 hbk
  have hb2hi := applyBackoff_upper cfg _ _ hbase1 hlvl0R hlvl5R hg2 hg0
  have hb20 : 0 ≤ applyBackoff cfg ((st.current_backoff_level : ℝ)) (clampGauss cfg d.gauss) :=
    le_trans hmin0 hb2lo
  have hM0 : (0:ℝ) ≤ cfg.backoff_base ^ (5:ℕ) * cfg.max_delay_seconds := by
    have h1 : (0:ℝ) ≤ cfg.backoff_base ^ (5:ℕ) :=
      le_trans zero_le_one (one_le_pow₀ hbase1)
    have h2 : (0:ℝ) ≤ cfg.max_delay_seconds := le_trans hmin0 hminmax
    positivity
  have hb3lo := applyBurst_lower cfg (count_recent_requests now cfg.burst_window_seconds st)
      d.burst (applyBackoff cfg ((st.current_backoff_level : ℝ)) (clampGauss cfg d.gauss))
  have hb3hi := applyBurst_upper cfg (count_recent_requests now cfg.burst_window_seconds st)
      d.burst (applyBackoff cfg ((st.current_backoff_level : ℝ)) (clampGauss cfg d.gauss))
      (cfg.backoff_base ^ (5:ℕ) * cfg.max_delay_seconds) hb2hi hM0 hburst
  have hb30 : (0:ℝ) ≤ applyBurst cfg (count_recent_requests now cfg.burst_window_seconds st)
      d.burst (applyBackoff cfg ((st.current_backoff_level : ℝ)) (clampGauss cfg d.gauss)) :=
    le_trans hb20 hb3lo
  have hM60 : (0:ℝ) ≤ cfg.backoff_base ^ (5:ℕ) * cfg.max_delay_seconds + 60 := by linarith
  have hb4lo := applyNight_lower cfg hour
      (applyBurst cfg (count_recent_requests now cfg.burst_window_seconds st) d.burst
        (applyBackoff cfg ((st.current_backoff_level : ℝ)) (clampGauss cfg d.gauss))) hb30
  have hb4hi := applyNight_upper cfg hour
      (applyBurst cfg (count_recent_requests now cfg.burst_window_seconds st) d.burst
        (applyBackoff cfg ((st.current_backoff_level : ℝ)) (clampGauss cfg d.gauss)))
      (cfg.backoff_base ^ (5:ℕ) * cfg.max_delay_seconds + 60) hb3hi hM60
  have hb40 : (0:ℝ) ≤ applyNight cfg hour
      (applyBurst cfg (count_recent_requests now cfg.burst_window_seconds st) d.burst
        (applyBackoff cfg ((st.current_backoff_level : ℝ)) (clampGauss cfg d.gauss))) :=
    le_trans hb30 hb4lo
  have h2M : (0:ℝ) ≤ 2 * (cfg.backoff_base ^ (5:ℕ) * cfg.max_delay_seconds + 60) := by
    linarith
  have hts : (0:ℝ) ≤ (now : ℝ) - ((st.engine_last_request engine : ℚ) : ℝ) := by linarith
  have hb5lo := applyEngineCooldown_lower
      ((now : ℝ) - ((st.engine_last_request engine : ℚ) : ℝ)) d.engineJitter
      (applyNight cfg hour
        (applyBurst cfg (count_recent_requests now cfg.burst_window_seconds st) d.burst
          (applyBackoff cfg ((st.current_backoff_level : ℝ)) (clampGauss cfg d.gauss))))
  have hb5hi := applyEngineCooldown_upper
      ((now : ℝ) - ((st.engine_last_request engine : ℚ) : ℝ)) d.engineJitter
      (applyNight cfg hour
        (applyBurst cfg (count_recent_requests now cfg.burst_window_seconds st) d.burst
          (applyBackoff cfg ((st.current_backoff_level : ℝ)) (clampGauss cfg d.gauss))))
      (2 * (cfg.backoff_base ^ (5:ℕ) * cfg.max_delay_seconds + 60))
      hb4hi h2M hts hjit
  have hp0 : (0:ℝ) ≤ d.thinkingPause := by linarith
  have hb6lo := applyThinking_lower cfg d.thinking d.thinkingPause
      (applyEngineCooldown ((now : ℝ) - ((st.engine_last_request engine : ℚ) : ℝ))
        d.engineJitter
        (applyNight cfg hour
          (applyBurst cfg (count_recent_requests now cfg.burst_window_seconds st) d.burst
            (applyBackoff cfg ((st.current_backoff_level : ℝ)) (clampGauss cfg d.gauss)))))
      hp0
  have hb6hi := applyThinking_upper cfg d.thinking d.thinkingPause
      (applyEngineCooldown ((now : ℝ) - ((st.engine_last_request engine : ℚ) : ℝ))
        d.engineJitter
        (applyNight cfg hour
          (applyBurst cfg (count_recent_requests now cfg.burst_window_seconds st) d.burst
            (applyBackoff cfg ((st.current_backoff_level : ℝ)) (clampGauss cfg d.gauss)))))
      (2 * (cfg.backoff_base ^ (5:ℕ) * cfg.max_delay_seconds + 60) + 20)
      hb5hi hpause2
  have hchain_lo : cfg.min_delay_seconds ≤ calculate_delay cfg st engine now hour d :=
    le_trans hb2lo (le_trans hb3lo (le_trans hb4lo (le_trans hb5lo hb6lo)))
  have hchain_hi : calculate_delay cfg st engine now hour d ≤
      2 * (cfg.backoff_base ^ (5:ℕ) * cfg.max_delay_seconds + 60) + 20 + 15 := hb6hi
  exact ⟨le_trans hmin0 hchain_lo, hchain_lo, hchain_hi⟩

/-- The default `RateLimitConfig()` (all dataclass defaults). -/
noncomputable def c6Config : RateLimitConfig := {}

/-- A concrete set of draws for the C6 witness: Gaussian sample 10, burst
draw 45, engine jitter 3, no thinking pause drawn (pause value 10). -/
noncomputable def c6Draws : DelayDraws :=
  { gauss := 10, burst := 45, engineJitter := 3, thinking := false,
    thinkingPause := 10 }

/-- Claim C6 (witness): the bound theorem applied to the default
configuration, a fresh queue state, engine "chatgpt" at time 100, hour 12. -/
theorem C6_witness :
    ((0:ℝ) ≤ c6Config.min_delay_seconds ∧
     c6Config.min_delay_seconds ≤ c6Config.max_delay_seconds ∧
     (1:ℝ) ≤ c6Config.backoff_base ∧
     c6Config.min_delay_seconds ≤ c6Config.max_backoff_minutes * 60 ∧
     0 ≤ initRequestQueueState.current_backoff_level ∧
     initRequestQueueState.current_backoff_level ≤ 5 ∧
     initRequestQueueState.engine_last_request "chatgpt" ≤ 100 ∧
     c6Draws.burst ≤ 60 ∧ c6Draws.engineJitter ≤ 5 ∧
     5 ≤ c6Draws.thinkingPause ∧ c6Draws.thinkingPause ≤ 15) ∧
    (0 ≤ calculate_delay c6Config initRequestQueueState "chatgpt" 100 12 c6Draws ∧
     c6Config.min_delay_seconds ≤
        calculate_delay c6Config initRequestQueueState "chatgpt" 100 12 c6Draws ∧
     calculate_delay c6Config initRequestQueueState "chatgpt" 100 12 c6Draws ≤
        2 * (c6Config.backoff_base ^ (5:ℕ) * c6Config.max_delay_seconds + 60) + 20 + 15) :=
  ⟨⟨by show (0:ℝ) ≤ 8; norm_num,
    by show (8:ℝ) ≤ 20; norm_num,
    by show (1:ℝ) ≤ 3/2; norm_num,
    by show (8:ℝ) ≤ 10 * 60; norm_num,
    by show (0:ℚ) ≤ 0; norm_num,
    by show (0:ℚ) ≤ 5; norm_num,
    by show (0:ℚ) ≤ 100; norm_num,
    by show (45:ℝ) ≤ 60; norm_num,
    by show (3:ℝ) ≤ 5; norm_num,
    by show (5:ℝ) ≤ 10; norm_num,
    by show (10:ℝ) ≤ 15; norm_num⟩,
   C6_theorem c6Config initRequestQueueState "chatgpt" 100 12 c6Draws
     (by show (0:ℝ) ≤ 8; norm_num)
     (by show (8:ℝ) ≤ 20; norm_num)
     (by show (1:ℝ) ≤ 3/2; norm_num)
     (by show (8:ℝ) ≤ 10 * 60; norm_num)
     (by show (0:ℚ) ≤ 0; norm_num)
     (by show (0:ℚ) ≤ 5; norm_num)
     (by show (0:ℚ) ≤ 100; norm_num)
     (by show (45:ℝ) ≤ 60; norm_num)
     (by show (3:ℝ) ≤ 5; norm_num)
     (by show (5:ℝ) ≤ 10; norm_num)
     (by show (10:ℝ) ≤ 15; norm_num)⟩

/- ---------- Claim C7: backoff level invariant ---------- -/

/-- Replay a list of recorded requests `(now, engine, success)` through
`record_request`, starting from a given queue state. -/
def replayRequests (events : List (ℚ × String × Bool)) (st : RequestQueueState) :
    RequestQueueState :=
  events.foldl (fun s ev => record_request ev.1 ev.2.1 ev.2.2 s) st

theorem record_request_level_bounds (now : ℚ) (engine : String) (success : Bool)
    (st : RequestQueueState) (h0 : 0 ≤ st.current_backoff_level)
    (h5 : st.current_backoff_level ≤ 5) :
    0 ≤ (record_request now engine success st).current_backoff_level ∧
    (record_request now engine success st).current_backoff_level ≤ 5 := by
  show 0 ≤ (if success then max 0 (st.current_backoff_level - 1/2)
      else min 5 (st.current_backoff_level + 1)) ∧
    (if success then max 0 (st.current_backoff_level - 1/2)
      else min 5 (st.current_backoff_level + 1)) ≤ 5
  cases success with
  | true =>
    constructor
    · exact le_max_left 0 _
    · rw [if_pos rfl]
      exact max_le (by norm_num) (by linarith)
  | false =>
    constructor
    · rw [if_neg (by decide)]
      exact le_min (by norm_num) (by linarith)
    · rw [if_neg (by decide)]
      exact min_le_left 5 _

theorem replayRequests_level_bounds (events : List (ℚ × String × Bool)) :
    ∀ st : RequestQueueState, 0 ≤ st.current_backoff_level →
      st.current_backoff_level ≤ 5 →
      0 ≤ (replayRequests events st).current_backoff_level ∧
      (replayRequests events st).current_backoff_level ≤ 5 := by
  induction events with
  | nil => intro st h0 h5; exact ⟨h0, h5⟩
  | cons ev rest ih =>
    intro st h0 h5
    have hstep := record_request_level_bounds ev.1 ev.2.1 ev.2.2 st h0 h5
    exact ih (record_request ev.1 ev.2.1 ev.2.2 st) hstep.1 hstep.2

/-- Claim C7: after any sequence of recorded outcomes, the global pacing
backoff level stays in [0, 5]; each failure adds 1 capped at 5, each success
subtracts half a step with floor 0. -/
theorem C7_theorem (events : List (ℚ × String × Bool)) :
    (0 ≤ (replayRequests events initRequestQueueState).current_backoff_level ∧
     (replayRequests events initRequestQueueState).current_backoff_level ≤ 5) ∧
    (∀ (st : RequestQueueState) (now : ℚ) (engine : String),
      (record_request now engine false st).current_backoff_level =
        min 5 (st.current_backoff_level + 1) ∧
      (record_request now engine true st).current_backoff_level =
        max 0 (st.current_backoff_level - 1/2)) := by
  constructor
  · exact replayRequests_level_bounds events initRequestQueueState
      (by norm_num [initRequestQueueState]) (by norm_num [initRequestQueueState])
  · intro st now engine
    constructor
    · show (if False then max 0 (st.current_backoff_level - 1/2)
          else min 5 (st.current_backoff_level + 1)) = _
      rw [if_neg (by decide)]
    · rfl

/- ===================== Parallel job selection (worker_v2.py) ===================== -/

/-- `QueueJob` (worker_v2.py lines 102-120).  All fields are carried;
`select_jobs_for_parallel` reads only `engine` and `priority`.  The Lean-side
defaults are for conciseness of concrete instances only. -/
structure QueueJob where
  id : String := ""
  brand_id : String := ""
  prompt_id : String := ""
  prompt_text : String := ""
  analysis_batch_id : String := ""
  engine : String
  language : String := ""
  region : String := ""
  brand_domain : String := ""
  brand_name : String := ""
  brand_aliases : List String := []
  priority : String := "normal"
deriving DecidableEq, Repr

/-- `priority_order = {"immediate": 0, "high": 1, "normal": 2, "low": 3}`
with the `.get(_, 2)` default (lines 721-722). -/
def priority_order (p : String) : ℕ :=
  if p = "immediate" then 0
  else if p = "high" then 1
  else if p = "normal" then 2
  else if p = "low" then 3
  else 2

/-- The sort key ordering of line 722. -/
def jobPriorityLE (a b : QueueJob) : Prop :=
  priority_order a.priority ≤ priority_order b.priority

instance : DecidableRel jobPriorityLE := fun a b =>
  inferInstanceAs (Decidable (priority_order a.priority ≤ priority_order b.priority))

instance : IsTotal QueueJob jobPriorityLE :=
  ⟨fun a b => Nat.le_total (priority_order a.priority) (priority_order b.priority)⟩

instance : IsTrans QueueJob jobPriorityLE :=
  ⟨fun _ _ _ hab hbc => Nat.le_trans hab hbc⟩

/-- `sorted(jobs, key=lambda j: priority_order.get(j.priority, 2))`
(line 722): Python's sort is stable, and a stable sort by this key is exactly
the stable insertion sort by `jobPriorityLE`. -/
def sortJobs (jobs : List QueueJob) : List QueueJob :=
  jobs.insertionSort jobPriorityLE

/-- One step of the `for job in sorted_jobs` loop (lines 725-728): a job is
stored only if its engine has no entry yet; a Python dict keeps first
occurrence and iterates in insertion order, so the dict is an association
list extended on the right. -/
def insertFirstByEngine (m : List (String × QueueJob)) (j : QueueJob) :
    List (String × QueueJob) :=
  if m.any (fun p => p.1 == j.engine) then m else m ++ [(j.engine, j)]

/-- The `selected_by_engine` dict after the loop of lines 725-728. -/
def selectedByEngine (jobs : List QueueJob) : List (String × QueueJob) :=
  jobs.foldl insertFirstByEngine []

/-- `engine_order = ["chatgpt", "perplexity", "gemini", "grok"]` (line 731). -/
def engine_order : List String := ["chatgpt", "perplexity", "gemini", "grok"]

/-- The first selection loop (lines 732-737): walk the preferred engine
order, appending that engine's job when present; on reaching
`max_parallel_engines` return the selection immediately (`.error` models the
early `return`, `.ok` falling through to the second loop). -/
def selectKnownEngines (m : List (String × QueueJob)) (maxPar : ℕ) :
    List String → List QueueJob → Except (List QueueJob) (List QueueJob)
  | [], sel => .ok sel
  | e :: rest, sel =>
    match m.lookup e with
    | none => selectKnownEngines m maxPar rest sel
    | some j =>
      if maxPar ≤ (sel ++ [j]).length then .error (sel ++ [j])
      else selectKnownEngines m maxPar rest (sel ++ [j])

/-- The second selection loop (lines 740-744): append the jobs of engines
outside the known list, breaking at the cap. -/
def selectOtherEngines (maxPar : ℕ) :
    List (String × QueueJob) → List QueueJob → List QueueJob
  | [], sel => sel
  | (e, j) :: rest, sel =>
    if e ∈ engine_order then selectOtherEngines maxPar rest sel
    else if maxPar ≤ (sel ++ [j]).length then sel ++ [j]
    else selectOtherEngines maxPar rest (sel ++ [j])

/-- `RPAWorkerV2.select_jobs_for_parallel` (lines 714-746). -/
def select_jobs_for_parallel (maxPar : ℕ) (jobs : List QueueJob) : List QueueJob :=
  let m := selectedByEngine (sortJobs jobs)
  match selectKnownEngines m maxPar engine_order [] with
  | .error sel => sel
  | .ok sel => selectOtherEngines maxPar m sel

/- ---------- selection lemmas ---------- -/

theorem lookup_mem {m : List (String × QueueJob)} {e : String} {j : QueueJob}
    (h : m.lookup e = some j) : (e, j) ∈ m := by
  obtain ⟨l1, l2, rfl, -⟩ := List.lookup_eq_some_iff.mp h
  simp

/-- Every entry of the first-occurrence dict built over a priority-sorted
list stores a job of that list whose engine is the key and whose priority is
minimal among the list's jobs for that key (the accumulator-generalized
invariant). -/
theorem foldl_insertFirst_spec :
    ∀ (l : List QueueJob) (acc : List (String × QueueJob)),
      List.Pairwise jobPriorityLE l →
      ∀ p ∈ l.foldl insertFirstByEngine acc,
        p ∈ acc ∨
        (acc.any (fun q => q.1 == p.1) = false ∧ p.2 ∈ l ∧ p.2.engine = p.1 ∧
          ∀ j' ∈ l, j'.engine = p.1 → jobPriorityLE p.2 j') := by
  intro l
  induction l with
  | nil =>
    intro acc _ p hp
    exact Or.inl hp
  | cons j rest ih =>
    intro acc hpw p hp
    obtain ⟨hhead, htail⟩ := List.pairwise_cons.mp hpw
    have hstep : (j :: rest).foldl insertFirstByEngine acc =
        rest.foldl insertFirstByEngine (insertFirstByEngine acc j) := rfl
    rw [hstep] at hp
    rcases ih (insertFirstByEngine acc j) htail p hp with hacc' | ⟨hany, hmem, heng, hmin⟩
    · rw [insertFirstByEngine] at hacc'
      by_cases hc : acc.any (fun q => q.1 == j.engine) = true
      · rw [if_pos hc] at hacc'
        exact Or.inl hacc'
      · rw [if_neg hc] at hacc'
        rcases List.mem_append.mp hacc' with hin | hnew
        · exact Or.inl hin
        · have hpj : p = (j.engine, j) := by simpa using hnew
          subst hpj
          refine Or.inr ⟨?_, List.mem_cons_self j rest, rfl, ?_⟩
          · exact Bool.not_eq_true _ ▸ eq_false_of_ne_true hc
          · intro j' hj' hj'e
            rcases List.mem_cons.mp hj' with rfl | hj'r
            · exact Nat.le_refl _
            · exact hhead j' hj'r
    · rw [insertFirstByEngine] at hany
      by_cases hc : acc.any (fun q => q.1 == j.engine) = true
      · rw [if_pos hc] at hany
        have hne : j.engine ≠ p.1 := by
          intro heq
          rw [heq] at hc
          rw [hany] at hc
          exact Bool.false_ne_true hc
        refine Or.inr ⟨hany, List.mem_cons_of_mem j hmem, heng, ?_⟩
        intro j' hj' hj'e
        rcases List.mem_cons.mp hj' with rfl | hj'r
        · exact absurd hj'e hne
        · exact hmin j' hj'r hj'e
      · rw [if_neg hc] at hany
        rw [List.any_append] at hany
        have h1 : acc.any (fun q => q.1 == p.1) = false :=
          (Bool.or_eq_false_iff.mp hany).1
        have h2 : ((j.engine, j).1 == p.1) = false := by
          have := (Bool.or_eq_false_iff.mp hany).2
          simpa using this
        have hne : j.engine ≠ p.1 := by
          intro heq
          rw [heq] at h2
          simp at h2
        refine Or.inr ⟨h1, List.mem_cons_of_mem j hmem, heng, ?_⟩
        intro j' hj' hj'e
        rcases List.mem_cons.mp hj' with rfl | hj'r
        · exact absurd hj'e hne
        · exact hmin j' hj'r hj'e

theorem selectedByEngine_spec (l : List QueueJob)
    (hpw : List.Pairwise jobPriorityLE l) :
    ∀ p ∈ selectedByEngine l, p.2 ∈ l ∧ p.2.engine = p.1 ∧
      ∀ j' ∈ l, j'.engine = p.1 → jobPriorityLE p.2 j' := by
  intro p hp
  rcases foldl_insertFirst_spec l [] hpw p hp with h | ⟨-, h2, h3, h4⟩
  · simp at h
  · exact ⟨h2, h3, h4⟩

/-- The keys of the first-occurrence dict are distinct. -/
theorem foldl_insertFirst_keys_nodup :
    ∀ (l : List QueueJob) (acc : List (String × QueueJob)),
      (acc.map Prod.fst).Nodup →
      ((l.foldl insertFirstByEngine acc).map Prod.fst).Nodup := by
  intro l
  induction l with
  | nil => intro acc h; exact h
  | cons j rest ih =>
    intro acc h
    refine ih (insertFirstByEngine acc j) ?_
    rw [insertFirstByEngine]
    by_cases hc : acc.any (fun q => q.1 == j.engine) = true
    · rw [if_pos hc]
      exact h
    · rw [if_neg hc]
      rw [List.map_append]
      have hnot : j.engine ∉ acc.map Prod.fst := by
        intro hmem
        obtain ⟨q, hq, hq2⟩ := List.mem_map.mp hmem
        refine hc (List.any_eq_true.mpr ⟨q, hq, ?_⟩)
        simp [hq2]
      simp [List.nodup_append, h, hnot]

theorem selectedByEngine_keys_nodup (l : List QueueJob) :
    ((selectedByEngine l).map Prod.fst).Nodup :=
  foldl_insertFirst_keys_nodup l [] (by simp)

/-- Combined invariant for the first selection loop: the selection keeps
property `G`, has pairwise-distinct engines drawn from `engine_order`, and
respects the cap (strictly below it when the loop falls through). -/
theorem selectKnownEngines_spec (m : List (String × QueueJob)) (maxPar : ℕ)
    (G : QueueJob → Prop)
    (hm : ∀ p ∈ m, G p.2 ∧ p.2.engine = p.1) :
    ∀ (es : List String) (sel : List QueueJob),
      (∀ j ∈ sel, G j) →
      (sel.map QueueJob.engine).Nodup →
      (∀ j ∈ sel, j.engine ∉ es) →
      es.Nodup →
      sel.length < maxPar →
      (∀ j ∈ sel, j.engine ∈ engine_order) →
      es ⊆ engine_order →
      (∀ s, selectKnownEngines m maxPar es sel = .error s →
        (∀ j ∈ s, G j) ∧ (s.map QueueJob.engine).Nodup ∧ s.length ≤ maxPar ∧
        (∀ j ∈ s, j.engine ∈ engine_order)) ∧
      (∀ s, selectKnownEngines m maxPar es sel = .ok s →
        (∀ j ∈ s, G j) ∧ (s.map QueueJob.engine).Nodup ∧ s.length < maxPar ∧
        (∀ j ∈ s, j.engine ∈ engine_order)) := by
  intro es
  induction es with
  | nil =>
    intro sel hG hnd _ _ hlen heo _
    constructor
    · intro s hs
      simp [selectKnownEngines] at hs
    · intro s hs
      rw [selectKnownEngines] at hs
      cases hs
      exact ⟨hG, hnd, hlen, heo⟩
  | cons e rest ih =>
    intro sel hG hnd hnotes hesnd hlen heo hsub
    have hrest_nd : rest.Nodup := (List.nodup_cons.mp hesnd).2
    have he_rest : e ∉ rest := (List.nodup_cons.mp hesnd).1
    have hsub' : rest ⊆ engine_order := fun x hx => hsub (List.mem_cons_of_mem e hx)
    cases hl : m.lookup e with
    | none =>
      have hred : selectKnownEngines m maxPar (e :: rest) sel =
          selectKnownEngines m maxPar rest sel := by
        rw [selectKnownEngines, hl]
      rw [hred]
      exact ih sel hG hnd
        (fun j hj => fun hin => hnotes j hj (List.mem_cons_of_mem e hin))
        hrest_nd hlen heo hsub'
    | some j =>
      have hmj := hm (e, j) (lookup_mem hl)
      have hGj : G j := hmj.1
      have hje : j.engine = e := hmj.2
      have hlen1 : (sel ++ [j]).length = sel.length + 1 := by simp
      have hjeo : j.engine ∈ engine_order := by
        rw [hje]
        exact hsub (List.mem_cons_self e rest)
      have hnot_in : j.engine ∉ sel.map QueueJob.engine := by
        intro hmem
        obtain ⟨j'', hj'', hj''e⟩ := List.mem_map.mp hmem
        refine hnotes j'' hj'' ?_
        rw [hj''e, hje]
        exact List.mem_cons_self e rest
      have hG' : ∀ j' ∈ sel ++ [j], G j' := by
        intro j' hj'
        rcases List.mem_append.mp hj' with h | h
        · exact hG j' h
        · have hji : j' = j := by simpa using h
          rw [hji]
          exact hGj
      have hnd' : ((sel ++ [j]).map QueueJob.engine).Nodup := by
        rw [List.map_append]
        simp [List.nodup_append, hnd, hnot_in]
      have heo' : ∀ j' ∈ sel ++ [j], j'.engine ∈ engine_order := by
        intro j' hj'
        rcases List.mem_append.mp hj' with h | h
        · exact heo j' h
        · have hji : j' = j := by simpa using h
          rw [hji]
          exact hjeo
      by_cases hcap : maxPar ≤ (sel ++ [j]).length
      · have hred : selectKnownEngines m maxPar (e :: rest) sel =
            .error (sel ++ [j]) := by
          rw [selectKnownEngines, hl]
          simp only [if_pos hcap]
        rw [hred]
        constructor
        · intro s hs
          cases hs
          exact ⟨hG', hnd', by omega, heo'⟩
        · intro s hs
          cases hs
      · have hred : selectKnownEngines m maxPar (e :: rest) sel =
            selectKnownEngines m maxPar rest (sel ++ [j]) := by
          rw [selectKnownEngines, hl]
          simp only [if_neg hcap]
        rw [hred]
        have hnotes' : ∀ j' ∈ sel ++ [j], j'.engine ∉ rest := by
          intro j' hj'
          rcases List.mem_append.mp hj' with h | h
          · exact fun hin => hnotes j' h (List.mem_cons_of_mem e hin)
          · have hji : j' = j := by simpa using h
            rw [hji, hje]
            exact he_rest
        have hlen' : (sel ++ [j]).length < maxPar := by omega
        exact ih (sel ++ [j]) hG' hnd' hnotes' hrest_nd hlen' heo' hsub'

/-- Combined invariant for the second selection loop. -/
theorem selectOtherEngines_spec (maxPar : ℕ) (G : QueueJob → Prop) :
    ∀ (l : List (String × QueueJob)) (sel : List QueueJob),
      (∀ p ∈ l, G p.2 ∧ p.2.engine = p.1) →
      (∀ j ∈ sel, G j) →
      (sel.map QueueJob.engine).Nodup →
      (l.map Prod.fst).Nodup →
      (∀ j ∈ sel, j.engine ∈ engine_order ∨ j.engine ∉ l.map Prod.fst) →
      sel.length < maxPar →
      (∀ j ∈ selectOtherEngines maxPar l sel, G j) ∧
      ((selectOtherEngines maxPar l sel).map QueueJob.engine).Nodup ∧
      (selectOtherEngines maxPar l sel).length ≤ maxPar := by
  intro l
  induction l with
  | nil =>
    intro sel _ hG hnd _ _ hlen
    rw [selectOtherEngines]
    exact ⟨hG, hnd, Nat.le_of_lt hlen⟩
  | cons p rest ih =>
    intro sel hentries hG hnd hkeysnd hmix hlen
    obtain ⟨e, j⟩ := p
    have hmj := hentries (e, j) (List.mem_cons_self _ _)
    have hGj : G j := hmj.1
    have hje : j.engine = e := hmj.2
    have hlen1 : (sel ++ [j]).length = sel.length + 1 := by simp
    have hentries' : ∀ q ∈ rest, G q.2 ∧ q.2.engine = q.1 :=
      fun q hq => hentries q (List.mem_cons_of_mem _ hq)
    have hkeysnd' : (rest.map Prod.fst).Nodup := by
      rw [List.map_cons] at hkeysnd
      exact (List.nodup_cons.mp hkeysnd).2
    have he_rest : e ∉ rest.map Prod.fst := by
      rw [List.map_cons] at hkeysnd
      exact (List.nodup_cons.mp hkeysnd).1
    by_cases heo : e ∈ engine_order
    · have hred : selectOtherEngines maxPar ((e, j) :: rest) sel =
          selectOtherEngines maxPar rest sel := by
        rw [selectOtherEngines]
        simp only [if_pos heo]
      rw [hred]
      refine ih sel hentries' hG hnd hkeysnd' ?_ hlen
      intro j' hj'
      rcases hmix j' hj' with h | h
      · exact Or.inl h
      · refine Or.inr ?_
        intro hin
        exact h (by rw [List.map_cons]; exact List.mem_cons_of_mem e hin)
    · have hnot_in : j.engine ∉ sel.map QueueJob.engine := by
        rw [hje]
        intro hmem
        obtain ⟨j'', hj'', hj''e⟩ := List.mem_map.mp hmem
        rcases hmix j'' hj'' with h | h
        · rw [hj''e] at h
          exact heo h
        · refine h ?_
          rw [hj''e, List.map_cons]
          exact List.mem_cons_self e _
      have hG' : ∀ j' ∈ sel ++ [j], G j' := by
        intro j' hj'
        rcases List.mem_append.mp hj' with h | h
        · exact hG j' h
        · have hji : j' = j := by simpa using h
          rw [hji]
          exact hGj
      have hnd' : ((sel ++ [j]).map QueueJob.engine).Nodup := by
        rw [List.map_append]
        simp [List.nodup_append, hnd, hnot_in]
      by_cases hcap : maxPar ≤ (sel ++ [j]).length
      · have hred : selectOtherEngines maxPar ((e, j) :: rest) sel = sel ++ [j] := by
          rw [selectOtherEngines]
          simp only [if_neg heo, if_pos hcap]
        rw [hred]
        exact ⟨hG', hnd', by omega⟩
      · have hred : selectOtherEngines maxPar ((e, j) :: rest) sel =
            selectOtherEngines maxPar rest (sel ++ [j]) := by
          rw [selectOtherEngines]
          simp only [if_neg heo, if_neg hcap]
        rw [hred]
        have hmix' : ∀ j' ∈ sel ++ [j],
            j'.engine ∈ engine_order ∨ j'.engine ∉ rest.map Prod.fst := by
          intro j' hj'
          rcases List.mem_append.mp hj' with h | h
          · rcases hmix j' h with h' | h'
            · exact Or.inl h'
            · refine Or.inr ?_
              intro hin
              exact h' (by rw [List.map_cons]; exact List.mem_cons_of_mem e hin)
          · have hji : j' = j := by simpa using h
            rw [hji, hje]
            exact Or.inr he_rest
        have hlen' : (sel ++ [j]).length < maxPar := by omega
        exact ih (sel ++ [j]) hentries' hG' hnd' hkeysnd' hmix' hlen'

/- ---------- Claim C1 ---------- -/

/-- Scenario jobs: targets [A,A,B,C] = [chatgpt, chatgpt, perplexity, gemini]
with priorities [normal, high, normal, low] (engine preference order maps
A,B,C to the first three known engines). -/
def c1JobA1 : QueueJob := { id := "a1", engine := "chatgpt", priority := "normal" }

/-- Second A-job of the scenario (high priority). -/
def c1JobA2 : QueueJob := { id := "a2", engine := "chatgpt", priority := "high" }

/-- B-job of the scenario. -/
def c1JobB : QueueJob := { id := "b", engine := "perplexity", priority := "normal" }

/-- C-job of the scenario. -/
def c1JobC : QueueJob := { id := "c", engine := "gemini", priority := "low" }

/-- The fetched batch of the scenario. -/
def c1Batch : List QueueJob := [c1JobA1, c1JobA2, c1JobB, c1JobC]

theorem c1_scenario : select_jobs_for_parallel 2 c1Batch = [c1JobA2, c1JobB] := by
  decide

/-- Claim C1: for every fetched batch and `max_parallel ≥ 1`, the parallel
selection contains at most one job per target, each selected job is a
highest-priority job of the batch for its target
(immediate > high > normal > low), the selection has at most `max_parallel`
jobs, and the spec's scenario [A,A,B,C] with priorities
[normal, high, normal, low] and max_parallel = 2 selects [A(high), B]. -/
theorem C1_theorem (maxPar : ℕ) (jobs : List QueueJob) (hmax : 1 ≤ maxPar) :
    ((select_jobs_for_parallel maxPar jobs).map QueueJob.engine).Nodup ∧
    (∀ j ∈ select_jobs_for_parallel maxPar jobs,
      j ∈ jobs ∧ ∀ j' ∈ jobs, j'.engine = j.engine →
        priority_order j.priority ≤ priority_order j'.priority) ∧
    (select_jobs_for_parallel maxPar jobs).length ≤ maxPar ∧
    select_jobs_for_parallel 2 c1Batch = [c1JobA2, c1JobB] := by
  have hpw : List.Pairwise jobPriorityLE (sortJobs jobs) :=
    List.sorted_insertionSort jobPriorityLE jobs
  have hperm : (sortJobs jobs).Perm jobs := List.perm_insertionSort jobPriorityLE jobs
  have hm : ∀ p ∈ selectedByEngine (sortJobs jobs),
      (p.2 ∈ jobs ∧ ∀ j' ∈ jobs, j'.engine = p.2.engine →
        priority_order p.2.priority ≤ priority_order j'.priority) ∧
      p.2.engine = p.1 := by
    intro p hp
    obtain ⟨hmem, heng, hmin⟩ := selectedByEngine_spec (sortJobs jobs) hpw p hp
    refine ⟨⟨hperm.mem_iff.mp hmem, ?_⟩, heng⟩
    intro j' hj' hj'e
    exact hmin j' (hperm.mem_iff.mpr hj') (by rw [hj'e, heng])
  have hspec := selectKnownEngines_spec (selectedByEngine (sortJobs jobs)) maxPar
      (fun j => j ∈ jobs ∧ ∀ j' ∈ jobs, j'.engine = j.engine →
        priority_order j.priority ≤ priority_order j'.priority) hm
      engine_order [] (by simp) (by simp) (by simp) (by decide)
      (by simp only [List.length_nil]; omega) (by simp) (fun x hx => hx)
  rcases hcase : selectKnownEngines (selectedByEngine (sortJobs jobs)) maxPar
      engine_order [] with s | s
  · have hXeq : select_jobs_for_parallel maxPar jobs = s := by
      show (match selectKnownEngines (selectedByEngine (sortJobs jobs)) maxPar
              engine_order [] with
            | .error sel => sel
            | .ok sel => selectOtherEngines maxPar (selectedByEngine (sortJobs jobs)) sel) = s
      rw [hcase]
    obtain ⟨hGs, hnds, hlens, -⟩ := hspec.1 s hcase
    rw [hXeq]
    exact ⟨hnds, hGs, hlens, c1_scenario⟩
  · have hXeq : select_jobs_for_parallel maxPar jobs =
        selectOtherEngines maxPar (selectedByEngine (sortJobs jobs)) s := by
      show (match selectKnownEngines (selectedByEngine (sortJobs jobs)) maxPar
              engine_order [] with
            | .error sel => sel
            | .ok sel => selectOtherEngines maxPar (selectedByEngine (sortJobs jobs)) sel) = _
      rw [hcase]
    obtain ⟨hGs, hnds, hlens, heos⟩ := hspec.2 s hcase
    have hkeys := selectedByEngine_keys_nodup (sortJobs jobs)
    have h2 := selectOtherEngines_spec maxPar
        (fun j => j ∈ jobs ∧ ∀ j' ∈ jobs, j'.engine = j.engine →
          priority_order j.priority ≤ priority_order j'.priority)
        (selectedByEngine (sortJobs jobs)) s hm hGs hnds hkeys
        (fun j hj => Or.inl (heos j hj)) hlens
    rw [hXeq]
    exact ⟨h2.2.1, h2.1, h2.2.2, c1_scenario⟩

/-- Claim C1 (witness): the theorem applied to the scenario batch with
`max_parallel = 2`. -/
theorem C1_witness :
    1 ≤ 2 ∧
    (((select_jobs_for_parallel 2 c1Batch).map QueueJob.engine).Nodup ∧
     (∀ j ∈ select_jobs_for_parallel 2 c1Batch,
        j ∈ c1Batch ∧ ∀ j' ∈ c1Batch, j'.engine = j.engine →
          priority_order j.priority ≤ priority_order j'.priority) ∧
     (select_jobs_for_parallel 2 c1Batch).length ≤ 2 ∧
     select_jobs_for_parallel 2 c1Batch = [c1JobA2, c1JobB]) :=
  ⟨by decide, C1_theorem 2 c1Batch (by decide)⟩

/- ===================== Parallel result collection (worker_v2.py) ===================== -/

/-- The fields of the per-job result dict read by the collection loop of
`process_jobs_parallel` (lines 957-989). -/
structure PyJobResult where
  success : Bool
  skipped : Bool
  error_message : String := ""
deriving DecidableEq, Repr

/-- What one dispatched future does, as seen by the collection loop:
either it completes with a result dict, or its task raised an exception
(re-raised by `future.result()`). -/
inductive FutureOutcome
  | finished (r : PyJobResult)
  | raised (msg : String)
deriving DecidableEq, Repr

/-- Externally visible effects of the collection phase: per-engine rate
recording, statistics counters, the ingest POST made by `complete_job`
(lines 595-648) and the queue-status PATCH made by `_update_queue_status`
(lines 658-673). -/
inductive WorkerEffect
  | recordEngine (engine : String) (success : Bool)
  | statIncrement (counter : String)
  | ingestPost (jobId : String) (success : Bool)
  | patchStatus (jobId : String) (success : Bool) (msg : Option String) (engine : Option String)
deriving DecidableEq, Repr

/-- `RPAWorkerV2.complete_job` (lines 595-656), abstracted over the ingest
HTTP response: one ingest POST, then exactly one status PATCH, returning
whether reporting succeeded. -/
def complete_job_effects (jobId engine : String) (success : Bool)
    (errMsg : String) (ingestOk : Bool) : List WorkerEffect × Bool :=
  if ingestOk then
    ([.ingestPost jobId success,
      .patchStatus jobId success (if success then none else some errMsg) (some engine)], true)
  else
    ([.ingestPost jobId success,
      .patchStatus jobId success (some errMsg) (some engine)], false)

/-- The body of the collection loop for one yielded future (lines 959-989):
record the engine request, then either count a skipped result locally, or
report completion (ingest + status patch) and count processed/failed; a
future whose task raised gets a failure count, a failure recording and one
direct status PATCH. -/
def handleCompletedFuture (job : QueueJob) (oc : FutureOutcome) (ingestOk : Bool) :
    List WorkerEffect :=
  match oc with
  | .finished r =>
    .recordEngine job.engine r.success ::
    (if r.skipped then [.statIncrement "jobs_skipped"]
     else
       (complete_job_effects job.id job.engine r.success r.error_message ingestOk).1 ++
       [if (complete_job_effects job.id job.engine r.success r.error_message ingestOk).2
        then .statIncrement "jobs_processed" else .statIncrement "jobs_failed"])
  | .raised msg =>
    [.statIncrement "jobs_failed", .recordEngine job.engine false,
     .patchStatus job.id false (some msg) (some job.engine)]

/-- The result-collection phase of `process_jobs_parallel` (lines 957-989)
under Python's `concurrent.futures.as_completed(fs, timeout=300)` semantics:
the iterator yields futures in completion order, and only futures that
complete within the overall 300-second window are ever yielded; if some
future is still pending when the window expires, the next `__next__` call
raises TimeoutError.  That exception is raised by the `for` statement
itself, outside the per-iteration `try`, so it aborts the loop and the
pending jobs are not handled at all.  (The
`except concurrent.futures.TimeoutError` branch inside the loop guards
`future.result(timeout=300)`, which is only ever called on futures already
yielded — hence already completed — and therefore never raises
TimeoutError.)  `completed` lists the yielded futures in completion order
together with the ingest response seen while reporting each; `pending` are
the jobs whose execution units did not return within the window.  The second
component is `true` when the phase finished normally and `false` when it was
aborted by the iterator's TimeoutError. -/
def collectParallelResults (completed : List (QueueJob × FutureOutcome × Bool))
    (pending : List QueueJob) : List WorkerEffect × Bool :=
  (completed.foldr (fun c acc => handleCompletedFuture c.1 c.2.1 c.2.2 ++ acc) [],
   pending.isEmpty)

/-- Number of status-PATCH calls for a given job id in an effect trace. -/
def patchCount (effects : List WorkerEffect) (jobId : String) : ℕ :=
  (effects.filter (fun e => match e with
    | .patchStatus j _ _ _ => j == jobId
    | _ => false)).length

/-- Number of terminal failure results recorded for the local statistics. -/
def failCount (effects : List WorkerEffect) : ℕ :=
  (effects.filter (fun e => match e with
    | .statIncrement c => c == "jobs_failed"
    | _ => false)).length

/- ---------- Claim C2 ---------- -/

/-- The C2 failing input: a dispatched batch of one job whose execution unit
does not return within the 300-second window. -/
def c2Job : QueueJob := { id := "j1", engine := "chatgpt", priority := "normal" }

/-- Claim C2 (code evaluation at the failing input): when the only dispatched
job's unit does not return within the window, the collection phase emits no
effect at all — zero synthesized failure results and zero status-patch calls
for that job, not exactly one — and aborts with the iterator's TimeoutError
(second component `false`). -/
theorem C2_theorem :
    (collectParallelResults [] [c2Job]).1 = [] ∧
    patchCount (collectParallelResults [] [c2Job]).1 "j1" = 0 ∧
    failCount (collectParallelResults [] [c2Job]).1 = 0 ∧
    (collectParallelResults [] [c2Job]).2 = false := by
  decide

/- ---------- Claim C8 ---------- -/

/-- Claim C8 (amended): for a result marked skipped, the per-result handling
emits exactly the engine-request recording followed by the local
skipped-counter increment — in particular no ingest (completion) call and no
status-patch call — but the per-target rate-limit state *is* updated before
the skip check. -/
theorem C8_theorem (job : QueueJob) (r : PyJobResult) (ingestOk : Bool)
    (hskip : r.skipped = true) :
    handleCompletedFuture job (.finished r) ingestOk =
      [.recordEngine job.engine r.success, .statIncrement "jobs_skipped"] ∧
    patchCount (handleCompletedFuture job (.finished r) ingestOk) job.id = 0 := by
  constructor
  · simp [handleCompletedFuture, hskip]
  · simp [handleCompletedFuture, hskip, patchCount]

/-- The scheduler-visible mutable state touched by the collection phase:
the per-engine rate-limit state and the statistics counters. -/
structure SchedulerState where
  rate : EngineRateState
  stats : String → ℕ

/-- Interpretation of one effect on the scheduler state (external HTTP calls
do not change local state). -/
def applyWorkerEffect (t : ℚ) (st : SchedulerState) : WorkerEffect → SchedulerState
  | .recordEngine engine success =>
    { st with rate := record_engine_request t engine success st.rate }
  | .statIncrement c =>
    { st with stats := fun n => if n = c then st.stats n + 1 else st.stats n }
  | .ingestPost _ _ => st
  | .patchStatus _ _ _ _ => st

/-- Interpretation of an effect trace on the scheduler state. -/
def applyWorkerEffects (t : ℚ) (st : SchedulerState) (l : List WorkerEffect) :
    SchedulerState :=
  l.foldl (applyWorkerEffect t) st

/-- The C8 concrete instance: a skipped duplicate result (skipped results
carry `success=False` in `process_job`, lines 779-783). -/
def c8Job : QueueJob := { id := "j8", engine := "chatgpt", priority := "normal" }

/-- Fresh scheduler state for the C8 counterexample. -/
def c8State : SchedulerState :=
  { rate := initEngineRateState, stats := fun _ => 0 }

/-- Claim C8 (counterexample): handling a skipped result at a concrete input
makes no completion call and no status patch and increments the local
skipped counter — but it is NOT the only state change: the per-target
error counter moves from 0 to 1 (the engine request is recorded as a failure
before the skip check), so "the only state change is incrementing the local
skipped counter" is false. -/
theorem C8_counterexample :
    patchCount (handleCompletedFuture c8Job
      (.finished { success := false, skipped := true }) true) "j8" = 0 ∧
    (applyWorkerEffects 1 c8State (handleCompletedFuture c8Job
      (.finished { success := false, skipped := true }) true)).stats "jobs_skipped" = 1 ∧
    c8State.rate.engine_error_count "chatgpt" = 0 ∧
    (applyWorkerEffects 1 c8State (handleCompletedFuture c8Job
      (.finished { success := false, skipped := true }) true)).rate.engine_error_count
        "chatgpt" = 1 := by
  decide

/-- Claim C8 (witness): the amended theorem applied at the concrete skipped
result. -/
theorem C8_witness :
    (({ success := false, skipped := true } : PyJobResult).skipped = true) ∧
    (handleCompletedFuture c8Job (.finished { success := false, skipped := true }) true =
      [.recordEngine c8Job.engine false, .statIncrement "jobs_skipped"] ∧
     patchCount (handleCompletedFuture c8Job
       (.finished { success := false, skipped := true }) true) c8Job.id = 0) :=
  ⟨rfl, C8_theorem c8Job { success := false, skipped := true } true rfl⟩

/- ===================== Main loop error backoff (worker_v2.py) ===================== -/

/-- Outcome of one main-loop iteration as seen by the error-backoff logic
(`run`, lines 1144-1216). -/
inductive MainLoopEvent
  | noJobs
  | parallelDone (processed : ℕ)
  | seqReportOk
  | seqReportFail
  | loopError
deriving DecidableEq, Repr

/-- The consecutive-error bookkeeping of one iteration: returns the new
counter and whether this iteration slept for `error_backoff_seconds`
(lines 1150-1216: no-jobs, successful batches and successful sequential
reports reset the counter; a failing sequential report increments it without
a threshold check; an exception increments it, and on reaching
`max_consecutive_errors` sleeps the backoff and resets to 0). -/
def main_loop_step (maxConsecutiveErrors : ℕ) (c : ℕ) : MainLoopEvent → ℕ × Bool
  | .noJobs => (0, false)
  | .parallelDone processed => (if processed = 0 then c else 0, false)
  | .seqReportOk => (0, false)
  | .seqReportFail => (c + 1, false)
  | .loopError =>
    if maxConsecutiveErrors ≤ c + 1 then (0, true) else (c + 1, false)

/-- Run the main loop over a list of iteration outcomes, starting from
counter 0 (line 1141), returning the final counter and the number of
error-backoff sleeps performed. -/
def runMainLoop (maxConsecutiveErrors : ℕ) (events : List MainLoopEvent) : ℕ × ℕ :=
  events.foldl (fun acc ev =>
    let r := main_loop_step maxConsecutiveErrors acc.1 ev
    (r.1, acc.2 + (if r.2 then 1 else 0))) (0, 0)

/-- Claim C9: a main-loop error that brings the consecutive-error counter to
`max_consecutive_errors` triggers the backoff sleep and resets the counter to
0 (without exiting the loop); below the threshold it only increments.  With
`max_consecutive_errors = 5`: five consecutive errors from a fresh loop give
exactly one backoff sleep and counter 0; the first four give none; and a 6th
error simply starts counting again (counter 1, still one sleep in total). -/
theorem C9_theorem :
    (∀ (maxErr c : ℕ), maxErr ≤ c + 1 →
      main_loop_step maxErr c .loopError = (0, true)) ∧
    (∀ (maxErr c : ℕ), c + 1 < maxErr →
      main_loop_step maxErr c .loopError = (c + 1, false)) ∧
    runMainLoop 5 (List.replicate 4 .loopError) = (4, 0) ∧
    runMainLoop 5 (List.replicate 5 .loopError) = (0, 1) ∧
    runMainLoop 5 (List.replicate 6 .loopError) = (1, 1) := by
  refine ⟨?_, ?_, by decide, by decide, by decide⟩
  · intro maxErr c h
    simp [main_loop_step, h]
  · intro maxErr c h
    simp [main_loop_step, Nat.not_le.mpr h]

/-- Claim C9 (witness): the threshold case at `max_consecutive_errors = 5`,
counter 4 (the 5th consecutive error). -/
theorem C9_witness :
    (5 ≤ 4 + 1 ∧ main_loop_step 5 4 .loopError = (0, true)) ∧
    (4 + 1 < 6 ∧ main_loop_step 6 4 .loopError = (5, false)) :=
  ⟨⟨by decide, C9_theorem.1 5 4 (by decide)⟩,
   ⟨by decide, C9_theorem.2.1 6 4 (by decide)⟩⟩
